import Mathlib

/-!
Shallow embedding of `rtc::scoped_refptr<T>` (src/api/scoped_refptr.h) and of
`InitCocoaMultiThreading` (src/rtc_base/system/cocoa_threading.mm).

Referents (the intrusively reference-counted objects of type `T`) are modelled
by identifiers (`RefId`); a raw pointer `T*` is a nullable identifier (`Ptr`).
The state of all referents lives in a `Heap` mapping each identifier to its
live claim count and to the number of times it has destroyed itself.  The
`AddRef`/`Release` operations that `T` must provide are not part of the
repository source; they are modelled from the spec's Referenceable contract.
Each member function of `scoped_refptr` is translated into a Lean function in
explicit state-passing style, following the C++ statement order.
-/

namespace Rtc

/-- Identifier of a reference-counted object (the model's address of a `T`). -/
abbrev RefId := Nat

/-- A nullable raw pointer `T*`: either null or a referent identifier. -/
abbrev Ptr := Option RefId

/-- Modelled from the spec: state of one Referenceable referent — its live
claim count, and how many times it has destroyed itself (destruction happens
exactly when the count reaches zero during a decrement). -/
structure Referent where
  count : Nat
  destroyCount : Nat
deriving Repr, DecidableEq

/-- The heap: per-referent state, indexed by referent identifier. -/
abbrev Heap := RefId → Referent

/-- Modelled from the spec: `increment()` / `AddRef()` registers one more
ownership claim on referent `i`. -/
def addRef (h : Heap) (i : RefId) : Heap :=
  fun j => if j = i then { h i with count := (h i).count + 1 } else h j

/-- Modelled from the spec: `decrement()` / `Release()` releases one claim on
referent `i`; when the count reaches zero the referent destroys itself. -/
def releaseRef (h : Heap) (i : RefId) : Heap :=
  fun j =>
    if j = i then
      let n := (h i).count - 1
      { count := n,
        destroyCount :=
          if n = 0 then (h i).destroyCount + 1 else (h i).destroyCount }
    else h j

/-- The guarded call `if (p) p->AddRef();` on a nullable pointer. -/
def addRefOpt (p : Ptr) (h : Heap) : Heap :=
  match p with
  | some i => addRef h i
  | none => h

/-- The guarded call `if (p) p->Release();` on a nullable pointer. -/
def releaseOpt (p : Ptr) (h : Heap) : Heap :=
  match p with
  | some i => releaseRef h i
  | none => h

/-- `rtc::scoped_refptr<T>`: holds exactly one field, the raw pointer. -/
structure scoped_refptr where
  ptr_ : Ptr
deriving Repr, DecidableEq

namespace scoped_refptr

/-- Default constructor: `scoped_refptr() : ptr_(nullptr) {}`. -/
def mkDefault : scoped_refptr := ⟨none⟩

/-- Constructor from a raw pointer:
`scoped_refptr(T* p) : ptr_(p) { if (ptr_) ptr_->AddRef(); }`. -/
def fromRaw (p : Ptr) (h : Heap) : scoped_refptr × Heap :=
  (⟨p⟩, addRefOpt p h)

/-- `T* get() const { return ptr_; }` — a const accessor: returns the field
and leaves the handle and the heap untouched. -/
def getM (r : scoped_refptr) (h : Heap) : Ptr × scoped_refptr × Heap :=
  (r.ptr_, r, h)

/-- `get()` as a pure read of the field. -/
def get (r : scoped_refptr) : Ptr := r.ptr_

/-- `operator T*() const { return ptr_; }` — implicit conversion to raw. -/
def toRawConv (r : scoped_refptr) (h : Heap) : Ptr × scoped_refptr × Heap :=
  (r.ptr_, r, h)

/-- `T& operator*() const { return *ptr_; }` — the returned reference is
modelled by the identifier of the referent it designates (null means the
dereference was a contract violation). -/
def derefM (r : scoped_refptr) (h : Heap) : Ptr × scoped_refptr × Heap :=
  (r.ptr_, r, h)

/-- `T* operator->() const { return ptr_; }`. -/
def arrowM (r : scoped_refptr) (h : Heap) : Ptr × scoped_refptr × Heap :=
  (r.ptr_, r, h)

/-- `T* release() { T* retVal = ptr_; ptr_ = nullptr; return retVal; }` —
returns the old field value and the updated handle; the heap is not an
argument because no reference-count call occurs. -/
def release (r : scoped_refptr) : Ptr × scoped_refptr :=
  (r.ptr_, ⟨none⟩)

/-- Copy constructor (same type):
`scoped_refptr(const scoped_refptr<T>& r) : ptr_(r.ptr_) { if (ptr_) ptr_->AddRef(); }`. -/
def copyCtor (r : scoped_refptr) (h : Heap) : scoped_refptr × Heap :=
  (⟨r.ptr_⟩, addRefOpt r.ptr_ h)

/-- Copy constructor from a related type `scoped_refptr<U>` (upcast):
`scoped_refptr(const scoped_refptr<U>& r) : ptr_(r.get()) { if (ptr_) ptr_->AddRef(); }`.
Types are erased in the model, so the upcast of the referent is the identity
on identifiers and the source handle is read through `get()`. -/
def copyCtorU (r : scoped_refptr) (h : Heap) : scoped_refptr × Heap :=
  (⟨r.get⟩, addRefOpt r.get h)

/-- Move constructor:
`scoped_refptr(scoped_refptr<T>&& r) noexcept : ptr_(r.release()) {}` —
returns the new handle and the updated source. -/
def moveCtor (r : scoped_refptr) : scoped_refptr × scoped_refptr :=
  let (p, r1) := r.release
  (⟨p⟩, r1)

/-- Move constructor from a related type `scoped_refptr<U>` — same body,
`ptr_(r.release())`. -/
def moveCtorU (r : scoped_refptr) : scoped_refptr × scoped_refptr :=
  let (p, r1) := r.release
  (⟨p⟩, r1)

/-- Destructor: `~scoped_refptr() { if (ptr_) ptr_->Release(); }`. -/
def destruct (r : scoped_refptr) (h : Heap) : Heap :=
  releaseOpt r.ptr_ h

/-- First statement of `operator=(T* p)`: `if (p) p->AddRef();`. -/
def assignRawStep1 (p : Ptr) (h : Heap) : Heap := addRefOpt p h

/-- Second statement of `operator=(T* p)`: `if (ptr_) ptr_->Release();`. -/
def assignRawStep2 (r : scoped_refptr) (h : Heap) : Heap :=
  releaseOpt r.ptr_ h

/-- `scoped_refptr<T>& operator=(T* p)`: AddRef the new pointer first, then
Release the old field, then store `p`. -/
def assignRaw (r : scoped_refptr) (p : Ptr) (h : Heap) : scoped_refptr × Heap :=
  (⟨p⟩, assignRawStep2 r (assignRawStep1 p h))

/-- `operator=(const scoped_refptr<T>& r) { return *this = r.ptr_; }`. -/
def copyAssign (r src : scoped_refptr) (h : Heap) : scoped_refptr × Heap :=
  r.assignRaw src.ptr_ h

/-- Cross-type `operator=(const scoped_refptr<U>& r) { return *this = r.get(); }`. -/
def copyAssignU (r src : scoped_refptr) (h : Heap) : scoped_refptr × Heap :=
  r.assignRaw src.get h

/-- `void swap(T** pp)`: three-statement exchange of the field with an
external slot — `T* p = ptr_; ptr_ = *pp; *pp = p;`. -/
def swapPP (r : scoped_refptr) (pp : Ptr) : scoped_refptr × Ptr :=
  let p := r.ptr_
  (⟨pp⟩, p)

/-- `void swap(scoped_refptr<T>& r) { swap(&r.ptr_); }` — delegates to the
slot version on the other handle's field. -/
def swapH (r other : scoped_refptr) : scoped_refptr × scoped_refptr :=
  let (r1, slot1) := r.swapPP other.ptr_
  (r1, ⟨slot1⟩)

/-- `operator=(scoped_refptr<T>&& r)` for `this` and `r` distinct objects:
`scoped_refptr<T>(std::move(r)).swap(*this);` — a temporary is
move-constructed from the source, swapped with the destination, and then
destructed (releasing whatever the destination previously held).
Returns (new destination, new source, new heap). -/
def moveAssign (dst src : scoped_refptr) (h : Heap) :
    scoped_refptr × scoped_refptr × Heap :=
  let (tmp, src1) := src.moveCtor
  let (tmp1, dst1) := tmp.swapH dst
  let h1 := tmp1.destruct h
  (dst1, src1, h1)

/-- `operator=(scoped_refptr<T>&& r)` when `this` and `r` are the same
object (self-move): the move-construction nulls the object, the swap then
exchanges the temporary's payload back into it, and the temporary destructs
holding null. -/
def moveAssignSelf (x : scoped_refptr) (h : Heap) : scoped_refptr × Heap :=
  let (tmp, x1) := x.moveCtor
  let (tmp1, x2) := tmp.swapH x1
  let h1 := tmp1.destruct h
  (x2, h1)

end scoped_refptr

/-!
A small-step semantics for arbitrary sequences of handle operations, used for
the global accounting invariant.  A configuration holds the fields of all
live handles (as a list of slots, one per live handle), the number of claims
detached via `release()` per referent, and the heap.  Each operation mirrors
the statement order of the corresponding member function, acting on handles
named by their position in the list; an out-of-range position makes the
operation a no-op.
-/

/-- One handle operation in a trace.  Indices name live handles by position
in the configuration's handle list. -/
inductive Op where
  | mkDefault : Op
  | mkFromRaw : Ptr → Op
  | mkCopy : Nat → Op
  | mkMove : Nat → Op
  | assignRaw : Nat → Ptr → Op
  | assignCopy : Nat → Nat → Op
  | assignMove : Nat → Nat → Op
  | swapOp : Nat → Nat → Op
  | releaseOp : Nat → Op
  | destroy : Nat → Op
deriving Repr, DecidableEq

/-- A configuration: the fields of all live handles, the per-referent number
of claims detached via `release()`, and the heap. -/
structure Config where
  handles : List Ptr
  released : RefId → Nat
  heap : Heap

/-- Record one claim detached via `release()` of the pointer `p`. -/
def bumpReleased (f : RefId → Nat) (p : Ptr) : RefId → Nat :=
  match p with
  | some i => fun j => if j = i then f i + 1 else f j
  | none => f

/-- One step of the trace semantics.  Each case follows the C++ member
function it names, reading and writing handle slots in source order. -/
def step (c : Config) (op : Op) : Config :=
  match op with
  | .mkDefault =>
      { c with handles := c.handles ++ [none] }
  | .mkFromRaw p =>
      { c with handles := c.handles ++ [p], heap := addRefOpt p c.heap }
  | .mkCopy j =>
      if j < c.handles.length then
        let p := c.handles.getD j none
        { c with handles := c.handles ++ [p], heap := addRefOpt p c.heap }
      else c
  | .mkMove j =>
      if j < c.handles.length then
        let p := c.handles.getD j none
        { c with handles := (c.handles.set j none) ++ [p] }
      else c
  | .assignRaw j p =>
      if j < c.handles.length then
        let q := c.handles.getD j none
        { c with handles := c.handles.set j p,
                 heap := releaseOpt q (addRefOpt p c.heap) }
      else c
  | .assignCopy j k =>
      if j < c.handles.length then
        if k < c.handles.length then
          let p := c.handles.getD k none
          let q := c.handles.getD j none
          { c with handles := c.handles.set j p,
                   heap := releaseOpt q (addRefOpt p c.heap) }
        else c
      else c
  | .assignMove j k =>
      if j < c.handles.length then
        if k < c.handles.length then
          let p := c.handles.getD k none
          let hs1 := c.handles.set k none
          let q := hs1.getD j none
          { c with handles := hs1.set j p, heap := releaseOpt q c.heap }
        else c
      else c
  | .swapOp j k =>
      if j < c.handles.length then
        if k < c.handles.length then
          let a := c.handles.getD j none
          let b := c.handles.getD k none
          { c with handles := (c.handles.set j b).set k a }
        else c
      else c
  | .releaseOp j =>
      if j < c.handles.length then
        let p := c.handles.getD j none
        { c with handles := c.handles.set j none,
                 released := bumpReleased c.released p }
      else c
  | .destroy j =>
      if j < c.handles.length then
        let p := c.handles.getD j none
        { c with handles := c.handles.eraseIdx j,
                 heap := releaseOpt p c.heap }
      else c

/-- Number of live handles whose field points at referent `i`. -/
def countPtr (l : List Ptr) (i : RefId) : Nat :=
  l.countP (fun p => decide (p = some i))

/-- The global accounting invariant: for every referent, live handles
pointing at it plus claims detached via `release()` equal its claim count. -/
def Inv (c : Config) : Prop :=
  ∀ i, countPtr c.handles i + c.released i = (c.heap i).count

/-- The initial configuration: no handles, nothing released, every referent
fresh with claim count zero. -/
def initConfig : Config :=
  { handles := [], released := fun _ => 0, heap := fun _ => ⟨0, 0⟩ }

/-- Run a sequence of handle operations from the initial configuration. -/
def runOps (ops : List Op) : Config :=
  ops.foldl step initConfig

end Rtc

namespace CocoaThreading

/-!
Shallow embedding of `InitCocoaMultiThreading`
(src/rtc_base/system/cocoa_threading.mm).  The function-local static
`is_cocoa_multithreaded` is modelled by a pair (was it initialized yet,
its value); the Cocoa runtime's `+[NSThread isMultiThreaded]` status by a
boolean, and the one-time engagement action (detaching the throwaway
thread, which turns the runtime multithreaded) by a counter of how many
times it ran.
-/

/-- Process-wide state seen by `InitCocoaMultiThreading`. -/
structure CocoaState where
  flagInit : Bool
  flag : Bool
  multithreaded : Bool
  detachCount : Nat
deriving Repr, DecidableEq

/-- One call to `InitCocoaMultiThreading()`: lazily initialize the static
flag from `[NSThread isMultiThreaded]` on first use; if the flag is false,
detach the throwaway thread (which makes the runtime multithreaded) and set
the flag. -/
def InitCocoaMultiThreading (s : CocoaState) : CocoaState :=
  let s1 :=
    if s.flagInit then s
    else { s with flagInit := true, flag := s.multithreaded }
  if s1.flag then s1
  else { s1 with detachCount := s1.detachCount + 1,
                 multithreaded := true, flag := true }

/-- Iterate `n` calls to `InitCocoaMultiThreading`. -/
def runInits : Nat → CocoaState → CocoaState
  | 0, s => s
  | n + 1, s => runInits n (InitCocoaMultiThreading s)

/-- A fresh process: the static flag not yet initialized, no thread
detached, the runtime's multithreaded status arbitrary. -/
def freshState (mt : Bool) : CocoaState :=
  { flagInit := false, flag := false, multithreaded := mt, detachCount := 0 }

end CocoaThreading

namespace Rtc

theorem countPtr_nil (i : RefId) : countPtr [] i = 0 := rfl

theorem countPtr_append (l : List Ptr) (p : Ptr) (i : RefId) :
    countPtr (l ++ [p]) i = countPtr l i + (if p = some i then 1 else 0) := by
  simp [countPtr, List.countP_append, List.countP_cons]

theorem countPtr_set (l : List Ptr) (j : Nat) (v : Ptr) (i : RefId)
    (hj : j < l.length) :
    countPtr (l.set j v) i + (if l.getD j none = some i then 1 else 0)
      = countPtr l i + (if v = some i then 1 else 0) := by
  induction l generalizing j with
  | nil => simp at hj
  | cons a t ih =>
    cases j with
    | zero =>
      simp only [List.set, List.getD_cons_zero, countPtr, List.countP_cons,
        decide_eq_true_eq]
      omega
    | succ n =>
      have hn : n < t.length := by simpa using hj
      have := ih n hn
      simp only [List.set, List.getD_cons_succ, countPtr, List.countP_cons]
        at this ⊢
      omega

theorem countPtr_eraseIdx (l : List Ptr) (j : Nat) (i : RefId)
    (hj : j < l.length) :
    countPtr (l.eraseIdx j) i + (if l.getD j none = some i then 1 else 0)
      = countPtr l i := by
  induction l generalizing j with
  | nil => simp at hj
  | cons a t ih =>
    cases j with
    | zero =>
      simp only [List.eraseIdx, List.getD_cons_zero, countPtr,
        List.countP_cons, decide_eq_true_eq]
    | succ n =>
      have hn : n < t.length := by simpa using hj
      have := ih n hn
      simp only [List.eraseIdx, List.getD_cons_succ, countPtr,
        List.countP_cons] at this ⊢
      omega

theorem countPtr_getD_le (l : List Ptr) (j : Nat) (i : RefId)
    (hj : j < l.length) :
    (if l.getD j none = some i then 1 else 0) ≤ countPtr l i := by
  have := countPtr_eraseIdx l j i hj
  omega

theorem getD_set_self (l : List Ptr) (k : Nat) (v : Ptr) (hk : k < l.length) :
    (l.set k v).getD k none = v := by
  induction l generalizing k with
  | nil => simp at hk
  | cons a t ih =>
    cases k with
    | zero => rfl
    | succ n =>
      have hn : n < t.length := by simpa using hk
      simpa using ih n hn

theorem getD_set_ne (l : List Ptr) (j k : Nat) (v : Ptr) (hne : j ≠ k) :
    (l.set k v).getD j none = l.getD j none := by
  induction l generalizing j k with
  | nil => simp
  | cons a t ih =>
    cases k with
    | zero =>
      cases j with
      | zero => exact absurd rfl hne
      | succ m => simp
    | succ n =>
      cases j with
      | zero => simp
      | succ m =>
        have : m ≠ n := by omega
        simpa using ih m n this

theorem addRefOpt_count (p : Ptr) (h : Heap) (i : RefId) :
    ((addRefOpt p h) i).count
      = (h i).count + (if p = some i then 1 else 0) := by
  cases p with
  | none => simp [addRefOpt]
  | some k =>
    by_cases hk : i = k
    · subst hk; simp [addRefOpt, addRef]
    · have : ¬ (some k = some i) := by simpa using fun e => hk e.symm
      simp [addRefOpt, addRef, hk, this]

theorem addRefOpt_destroy (p : Ptr) (h : Heap) (i : RefId) :
    ((addRefOpt p h) i).destroyCount = (h i).destroyCount := by
  cases p with
  | none => simp [addRefOpt]
  | some k =>
    by_cases hk : i = k
    · subst hk; simp [addRefOpt, addRef]
    · simp [addRefOpt, addRef, hk]

theorem releaseOpt_count (p : Ptr) (h : Heap) (i : RefId) :
    ((releaseOpt p h) i).count
      = (h i).count - (if p = some i then 1 else 0) := by
  cases p with
  | none => simp [releaseOpt]
  | some k =>
    by_cases hk : i = k
    · subst hk; simp [releaseOpt, releaseRef]
    · have : ¬ (some k = some i) := by simpa using fun e => hk e.symm
      simp [releaseOpt, releaseRef, hk, this]

theorem releaseOpt_destroy (p : Ptr) (h : Heap) (i : RefId) :
    ((releaseOpt p h) i).destroyCount
      = (if p = some i ∧ (h i).count - 1 = 0
          then (h i).destroyCount + 1 else (h i).destroyCount) := by
  cases p with
  | none => simp [releaseOpt]
  | some k =>
    by_cases hk : i = k
    · subst hk
      simp only [releaseOpt, releaseRef, if_pos rfl]
      by_cases hz : (h i).count - 1 = 0 <;> simp [hz]
    · have hne : ¬ (some k = some i) := by simpa using fun e => hk e.symm
      simp [releaseOpt, releaseRef, hk, hne]

theorem bumpReleased_eval (f : RefId → Nat) (p : Ptr) (i : RefId) :
    bumpReleased f p i = f i + (if p = some i then 1 else 0) := by
  cases p with
  | none => simp [bumpReleased]
  | some k =>
    by_cases hk : i = k
    · subst hk; simp [bumpReleased]
    · have : ¬ (some k = some i) := by simpa using fun e => hk e.symm
      simp [bumpReleased, hk, this]

theorem countPtr_append_none (l : List Ptr) (i : RefId) :
    countPtr (l ++ [none]) i = countPtr l i := by
  simpa using countPtr_append l none i

theorem countPtr_set_none (l : List Ptr) (j : Nat) (i : RefId)
    (hj : j < l.length) :
    countPtr (l.set j none) i + (if l.getD j none = some i then 1 else 0)
      = countPtr l i := by
  simpa using countPtr_set l j none i hj

theorem inv_step (c : Config) (op : Op) (hc : Inv c) : Inv (step c op) := by
  cases op with
  | mkDefault =>
    intro i
    have h1 := countPtr_append_none c.handles i
    have h2 := hc i
    simp only [step]
    omega
  | mkFromRaw p =>
    intro i
    have h1 := countPtr_append c.handles p i
    have h2 := addRefOpt_count p c.heap i
    have h3 := hc i
    simp only [step]
    omega
  | mkCopy j =>
    by_cases hj : j < c.handles.length
    · intro i
      have h1 := countPtr_append c.handles (c.handles.getD j none) i
      have h2 := addRefOpt_count (c.handles.getD j none) c.heap i
      have h3 := hc i
      simp only [step, if_pos hj]
      omega
    · simpa [step, if_neg hj] using hc
  | mkMove j =>
    by_cases hj : j < c.handles.length
    · intro i
      have h1 := countPtr_append (c.handles.set j none)
        (c.handles.getD j none) i
      have h2 := countPtr_set_none c.handles j i hj
      have h3 := hc i
      simp only [step, if_pos hj]
      omega
    · simpa [step, if_neg hj] using hc
  | assignRaw j p =>
    by_cases hj : j < c.handles.length
    · intro i
      have h1 := countPtr_set c.handles j p i hj
      have h2 := releaseOpt_count (c.handles.getD j none)
        (addRefOpt p c.heap) i
      have h3 := addRefOpt_count p c.heap i
      have h4 := countPtr_getD_le c.handles j i hj
      have h5 := hc i
      simp only [step, if_pos hj]
      omega
    · simpa [step, if_neg hj] using hc
  | assignCopy j k =>
    by_cases hj : j < c.handles.length
    · by_cases hk : k < c.handles.length
      · intro i
        have h1 := countPtr_set c.handles j (c.handles.getD k none) i hj
        have h2 := releaseOpt_count (c.handles.getD j none)
          (addRefOpt (c.handles.getD k none) c.heap) i
        have h3 := addRefOpt_count (c.handles.getD k none) c.heap i
        have h4 := countPtr_getD_le c.handles j i hj
        have h5 := hc i
        simp only [step, if_pos hj, if_pos hk]
        omega
      · simpa [step, if_neg hk] using hc
    · simpa [step, if_neg hj] using hc
  | assignMove j k =>
    by_cases hj : j < c.handles.length
    · by_cases hk : k < c.handles.length
      · intro i
        simp only [step, if_pos hj, if_pos hk]
        by_cases hjk : j = k
        · subst hjk
          have hq : (c.handles.set j none).getD j none = none :=
            getD_set_self c.handles j none hj
          have hset : (c.handles.set j none).set j (c.handles.getD j none)
              = c.handles.set j (c.handles.getD j none) :=
            List.set_set none (c.handles.getD j none) c.handles j
          have h1 := countPtr_set c.handles j (c.handles.getD j none) i hj
          have h5 := hc i
          rw [hq, hset]
          simp only [releaseOpt]
          omega
        · have hq : (c.handles.set k none).getD j none
              = c.handles.getD j none := getD_set_ne c.handles j k none hjk
          have hlen : j < (c.handles.set k none).length := by
            simpa using hj
          have h1 := countPtr_set (c.handles.set k none) j
            (c.handles.getD k none) i hlen
          have h2 := countPtr_set_none c.handles k i hk
          have h3 := releaseOpt_count (c.handles.getD j none) c.heap i
          have h4 := countPtr_getD_le c.handles j i hj
          have h5 := hc i
          rw [hq] at h1 ⊢
          omega
      · simpa [step, if_neg hk] using hc
    · simpa [step, if_neg hj] using hc
  | swapOp j k =>
    by_cases hj : j < c.handles.length
    · by_cases hk : k < c.handles.length
      · intro i
        simp only [step, if_pos hj, if_pos hk]
        by_cases hjk : j = k
        · subst hjk
          have hset : (c.handles.set j (c.handles.getD j none)).set j
                (c.handles.getD j none)
              = c.handles.set j (c.handles.getD j none) :=
            List.set_set (c.handles.getD j none)
              (c.handles.getD j none) c.handles j
          have h1 := countPtr_set c.handles j (c.handles.getD j none) i hj
          have h5 := hc i
          rw [hset]
          omega
        · have hq : (c.handles.set j (c.handles.getD k none)).getD k none
              = c.handles.getD k none := by
            have hne : k ≠ j := fun e => hjk e.symm
            exact getD_set_ne c.handles k j (c.handles.getD k none) hne
          have hlen : k < (c.handles.set j (c.handles.getD k none)).length := by
            simpa using hk
          have h1 := countPtr_set (c.handles.set j (c.handles.getD k none)) k
            (c.handles.getD j none) i hlen
          have h2 := countPtr_set c.handles j (c.handles.getD k none) i hj
          have h5 := hc i
          rw [hq] at h1
          omega
      · simpa [step, if_neg hk] using hc
    · simpa [step, if_neg hj] using hc
  | releaseOp j =>
    by_cases hj : j < c.handles.length
    · intro i
      have h1 := countPtr_set_none c.handles j i hj
      have h2 := bumpReleased_eval c.released (c.handles.getD j none) i
      have h5 := hc i
      simp only [step, if_pos hj]
      omega
    · simpa [step, if_neg hj] using hc
  | destroy j =>
    by_cases hj : j < c.handles.length
    · intro i
      have h1 := countPtr_eraseIdx c.handles j i hj
      have h2 := releaseOpt_count (c.handles.getD j none) c.heap i
      have h5 := hc i
      simp only [step, if_pos hj]
      omega
    · simpa [step, if_neg hj] using hc

theorem inv_foldl (ops : List Op) (c : Config) (hc : Inv c) :
    Inv (ops.foldl step c) := by
  induction ops generalizing c with
  | nil => exact hc
  | cons op t ih => exact ih _ (inv_step c op hc)

theorem inv_initConfig : Inv initConfig := by
  intro i
  simp [initConfig, countPtr]

theorem inv_runOps (ops : List Op) : Inv (runOps ops) :=
  inv_foldl ops initConfig inv_initConfig

end Rtc

namespace CocoaThreading

theorem init_fixed (s : CocoaState) (h1 : s.flagInit = true)
    (h2 : s.flag = true) : InitCocoaMultiThreading s = s := by
  simp [InitCocoaMultiThreading, h1, h2]

theorem init_fresh_props (mt : Bool) :
    (InitCocoaMultiThreading (freshState mt)).flagInit = true ∧
    (InitCocoaMultiThreading (freshState mt)).flag = true ∧
    (InitCocoaMultiThreading (freshState mt)).detachCount ≤ 1 := by
  cases mt <;> decide

theorem runInits_fixed (n : Nat) (s : CocoaState) (h1 : s.flagInit = true)
    (h2 : s.flag = true) : runInits n s = s := by
  induction n with
  | zero => rfl
  | succ m ih =>
    show runInits m (InitCocoaMultiThreading s) = s
    rw [init_fixed s h1 h2, ih]

end CocoaThreading

/-- Heap used by witness instantiations: every referent alive with one
claim and no destruction yet. -/
def hpOne : Rtc.Heap := fun _ => ⟨1, 0⟩

/-- C1: For every referent, at every point in any sequence of handle
operations (the trace semantics `Rtc.step`), the number of live handles
whose field points at that referent plus the number of claims detached
via release equals the referent's claim count; in the scenario construct
A from a fresh referent, copy A into B, destroy A, destroy B, the count
goes 1, 2, 1, 0, and the referent is destroyed exactly once when the
count reaches zero. -/
theorem claim_C1 :
    (∀ ops : List Rtc.Op, Rtc.Inv (Rtc.runOps ops)) ∧
    ((Rtc.runOps [Rtc.Op.mkFromRaw (some 0)]).heap 0).count = 1 ∧
    ((Rtc.runOps [Rtc.Op.mkFromRaw (some 0),
        Rtc.Op.mkCopy 0]).heap 0).count = 2 ∧
    ((Rtc.runOps [Rtc.Op.mkFromRaw (some 0), Rtc.Op.mkCopy 0,
        Rtc.Op.destroy 0]).heap 0).count = 1 ∧
    ((Rtc.runOps [Rtc.Op.mkFromRaw (some 0), Rtc.Op.mkCopy 0,
        Rtc.Op.destroy 0]).heap 0).destroyCount = 0 ∧
    ((Rtc.runOps [Rtc.Op.mkFromRaw (some 0), Rtc.Op.mkCopy 0,
        Rtc.Op.destroy 0, Rtc.Op.destroy 0]).heap 0).count = 0 ∧
    ((Rtc.runOps [Rtc.Op.mkFromRaw (some 0), Rtc.Op.mkCopy 0,
        Rtc.Op.destroy 0, Rtc.Op.destroy 0]).heap 0).destroyCount = 1 :=
  ⟨Rtc.inv_runOps, by decide, by decide, by decide, by decide, by decide,
    by decide⟩

/-- C9: the accessors `get()`, the implicit conversion to `T*`, dereference
and member access return the field's current value and leave the handle's
field and the heap (hence every claim count) unchanged; no increment or
decrement occurs. -/
theorem claim_C9 (r : Rtc.scoped_refptr) (hp : Rtc.Heap) :
    Rtc.scoped_refptr.getM r hp = (r.ptr_, r, hp) ∧
    Rtc.scoped_refptr.get r = r.ptr_ ∧
    Rtc.scoped_refptr.toRawConv r hp = (r.ptr_, r, hp) ∧
    Rtc.scoped_refptr.derefM r hp = (r.ptr_, r, hp) ∧
    Rtc.scoped_refptr.arrowM r hp = (r.ptr_, r, hp) :=
  ⟨rfl, rfl, rfl, rfl, rfl⟩

/-- C2: the raw-pointer assignment `h = p` increments `p` first, then
decrements the old referent, then stores `p`; for a handle aliasing `p`
(so `get() = p`) with claim count at least 1, the count is positive at
every intermediate step, the final count equals the initial count, the
referent is not destroyed, and the handle ends up storing `p`. -/
theorem claim_C2 (r : Rtc.scoped_refptr) (i : Rtc.RefId) (hp : Rtc.Heap)
    (hget : r.get = some i) (hn : 1 ≤ (hp i).count) :
    Rtc.scoped_refptr.assignRaw r (some i) hp
      = (⟨some i⟩, Rtc.scoped_refptr.assignRawStep2 r
          (Rtc.scoped_refptr.assignRawStep1 (some i) hp)) ∧
    ((Rtc.scoped_refptr.assignRawStep1 (some i) hp) i).count
      = (hp i).count + 1 ∧
    0 < ((Rtc.scoped_refptr.assignRawStep1 (some i) hp) i).count ∧
    ((Rtc.scoped_refptr.assignRawStep2 r
        (Rtc.scoped_refptr.assignRawStep1 (some i) hp)) i).count
      = (hp i).count ∧
    0 < ((Rtc.scoped_refptr.assignRawStep2 r
        (Rtc.scoped_refptr.assignRawStep1 (some i) hp)) i).count ∧
    ((Rtc.scoped_refptr.assignRaw r (some i) hp).2 i).destroyCount
      = (hp i).destroyCount ∧
    (Rtc.scoped_refptr.assignRaw r (some i) hp).1.ptr_ = some i := by
  have hr : r.ptr_ = some i := hget
  have h1 : ((Rtc.scoped_refptr.assignRawStep1 (some i) hp) i).count
      = (hp i).count + 1 := by
    simpa [Rtc.scoped_refptr.assignRawStep1] using
      Rtc.addRefOpt_count (some i) hp i
  have hx := Rtc.releaseOpt_count (some i)
    (Rtc.scoped_refptr.assignRawStep1 (some i) hp) i
  simp at hx
  have h2 : ((Rtc.scoped_refptr.assignRawStep2 r
      (Rtc.scoped_refptr.assignRawStep1 (some i) hp)) i).count
      = (hp i).count := by
    simp only [Rtc.scoped_refptr.assignRawStep2, hr]
    omega
  have hd2 : ((Rtc.scoped_refptr.assignRawStep1 (some i) hp) i).destroyCount
      = (hp i).destroyCount := by
    simpa [Rtc.scoped_refptr.assignRawStep1] using
      Rtc.addRefOpt_destroy (some i) hp i
  have hd3 : ((Rtc.releaseOpt (some i)
      (Rtc.scoped_refptr.assignRawStep1 (some i) hp)) i).destroyCount
      = ((Rtc.scoped_refptr.assignRawStep1 (some i) hp) i).destroyCount := by
    have hy := Rtc.releaseOpt_destroy (some i)
      (Rtc.scoped_refptr.assignRawStep1 (some i) hp) i
    have hpos : ¬ (((Rtc.scoped_refptr.assignRawStep1 (some i) hp) i).count - 1
        = 0) := by omega
    simp [hpos] at hy
    exact hy
  have h3 : ((Rtc.scoped_refptr.assignRaw r (some i) hp).2 i).destroyCount
      = (hp i).destroyCount := by
    show ((Rtc.scoped_refptr.assignRawStep2 r
      (Rtc.scoped_refptr.assignRawStep1 (some i) hp)) i).destroyCount = _
    simp only [Rtc.scoped_refptr.assignRawStep2, hr]
    rw [hd3, hd2]
  exact ⟨rfl, h1, by omega, h2, by omega, h3, rfl⟩

/-- C4: `release()` returns the current field, nulls the field, touches no
reference count (at the trace level the heap is unchanged by a release
operation), and destroying the handle afterwards is a no-op. -/
theorem claim_C4 (r : Rtc.scoped_refptr) (hp : Rtc.Heap) :
    (Rtc.scoped_refptr.release r).1 = r.ptr_ ∧
    (Rtc.scoped_refptr.release r).2.ptr_ = none ∧
    Rtc.scoped_refptr.destruct (Rtc.scoped_refptr.release r).2 hp = hp ∧
    (∀ c : Rtc.Config, ∀ j : Nat,
      (Rtc.step c (Rtc.Op.releaseOp j)).heap = c.heap) := by
  refine ⟨rfl, rfl, rfl, ?_⟩
  intro c j
  by_cases hj : j < c.handles.length
  · simp [Rtc.step, hj]
  · simp [Rtc.step, hj]

/-- C5: move construction (same type and the cross-type overload) makes
the new handle hold the source's former field, nulls the source, and does
not touch the heap (no increment or decrement; at the trace level the heap
and the released counters are unchanged by a move construction). -/
theorem claim_C5 (r : Rtc.scoped_refptr) :
    (Rtc.scoped_refptr.moveCtor r).1.ptr_ = r.ptr_ ∧
    (Rtc.scoped_refptr.moveCtor r).2.ptr_ = none ∧
    Rtc.scoped_refptr.moveCtorU r = Rtc.scoped_refptr.moveCtor r ∧
    (∀ c : Rtc.Config, ∀ j : Nat,
      (Rtc.step c (Rtc.Op.mkMove j)).heap = c.heap ∧
      (Rtc.step c (Rtc.Op.mkMove j)).released = c.released) := by
  refine ⟨rfl, rfl, rfl, ?_⟩
  intro c j
  by_cases hj : j < c.handles.length
  · constructor <;> simp [Rtc.step, hj]
  · constructor <;> simp [Rtc.step, hj]

/-- C6: swap with a raw slot exchanges the handle's field with the slot,
swap with another handle delegates to the slot version on that handle's
field; neither touches the heap (no increment or decrement; at the trace
level the heap and the released counters are unchanged by a swap). -/
theorem claim_C6 (r other : Rtc.scoped_refptr) (pp : Rtc.Ptr) :
    Rtc.scoped_refptr.swapPP r pp = (⟨pp⟩, r.ptr_) ∧
    Rtc.scoped_refptr.swapH r other = (⟨other.ptr_⟩, ⟨r.ptr_⟩) ∧
    Rtc.scoped_refptr.swapH r other
      = ((Rtc.scoped_refptr.swapPP r other.ptr_).1,
         ⟨(Rtc.scoped_refptr.swapPP r other.ptr_).2⟩) ∧
    (∀ c : Rtc.Config, ∀ j k : Nat,
      (Rtc.step c (Rtc.Op.swapOp j k)).heap = c.heap ∧
      (Rtc.step c (Rtc.Op.swapOp j k)).released = c.released) := by
  refine ⟨rfl, rfl, rfl, ?_⟩
  intro c j k
  by_cases hj : j < c.handles.length
  · by_cases hk : k < c.handles.length
    · constructor <;> simp [Rtc.step, hj, hk]
    · constructor <;> simp [Rtc.step, hj, hk]
  · constructor <;> simp [Rtc.step, hj]

/-- C10: `release()` on a null handle is well-defined: it returns null,
leaves the field null, and at the trace level a release of a null-holding
handle changes neither the heap nor the detached-claim counters. -/
theorem claim_C10 :
    (Rtc.scoped_refptr.release ⟨none⟩).1 = none ∧
    (Rtc.scoped_refptr.release ⟨none⟩).2.ptr_ = none ∧
    (∀ c : Rtc.Config, ∀ j : Nat, j < c.handles.length →
      c.handles.getD j none = none →
      (Rtc.step c (Rtc.Op.releaseOp j)).heap = c.heap ∧
      (Rtc.step c (Rtc.Op.releaseOp j)).released = c.released ∧
      (Rtc.step c (Rtc.Op.releaseOp j)).handles.getD j none = none) := by
  refine ⟨rfl, rfl, ?_⟩
  intro c j hj hnull
  refine ⟨by simp [Rtc.step, hj], ?_, ?_⟩
  · simp only [Rtc.step, if_pos hj, hnull]
    rfl
  · simp only [Rtc.step, if_pos hj]
    exact Rtc.getD_set_self c.handles j none hj

/-- Witness for C10: the inner trace-level statement instantiated at a
configuration with one null-holding handle. -/
theorem claim_C10_witness :
    ((0 : Nat) < (Rtc.Config.mk [none] (fun _ => 0) hpOne).handles.length) ∧
    ((Rtc.Config.mk [none] (fun _ => 0) hpOne).handles.getD 0 none = none) ∧
    (Rtc.step (Rtc.Config.mk [none] (fun _ => 0) hpOne)
        (Rtc.Op.releaseOp 0)).heap
      = (Rtc.Config.mk [none] (fun _ => 0) hpOne).heap :=
  ⟨by decide, by decide,
    (claim_C10.2.2 (Rtc.Config.mk [none] (fun _ => 0) hpOne) 0
      (by decide) (by decide)).1⟩

/-- Witness for C2: the self-assignment theorem instantiated with a handle
holding referent 0 on a heap where that referent has one claim. -/
theorem claim_C2_witness :
    Rtc.scoped_refptr.get ⟨some 0⟩ = some 0 ∧ 1 ≤ (hpOne 0).count ∧
    ((Rtc.scoped_refptr.assignRaw ⟨some 0⟩ (some 0) hpOne).2 0).destroyCount
      = (hpOne 0).destroyCount ∧
    (Rtc.scoped_refptr.assignRaw ⟨some 0⟩ (some 0) hpOne).1.ptr_ = some 0 :=
  ⟨rfl, by decide,
    (claim_C2 ⟨some 0⟩ 0 hpOne rfl (by decide)).2.2.2.2.2.1,
    (claim_C2 ⟨some 0⟩ 0 hpOne rfl (by decide)).2.2.2.2.2.2⟩

/-- C3: move assignment is a move-constructed temporary swapped with the
destination and then destructed: the destination ends holding the source's
former referent, the source becomes null, the destination's previous
referent is decremented exactly once (its count drops by one when distinct
from the transferred referent, whose count is unchanged), and self-move
leaves the handle and the heap entirely unchanged. -/
theorem claim_C3 (dst src : Rtc.scoped_refptr) (hp : Rtc.Heap) :
    (Rtc.scoped_refptr.moveAssign dst src hp).1.ptr_ = src.ptr_ ∧
    (Rtc.scoped_refptr.moveAssign dst src hp).2.1.ptr_ = none ∧
    (Rtc.scoped_refptr.moveAssign dst src hp).2.2
      = Rtc.releaseOpt dst.ptr_ hp ∧
    (∀ i j : Rtc.RefId, dst.ptr_ = some j → src.ptr_ = some i → j ≠ i →
      ((Rtc.scoped_refptr.moveAssign dst src hp).2.2 j).count
        = (hp j).count - 1 ∧
      ((Rtc.scoped_refptr.moveAssign dst src hp).2.2 i).count
        = (hp i).count) ∧
    Rtc.scoped_refptr.moveAssignSelf dst hp = (dst, hp) := by
  refine ⟨rfl, rfl, rfl, ?_, rfl⟩
  intro i j hdst hsrc hne
  have hheap : (Rtc.scoped_refptr.moveAssign dst src hp).2.2
      = Rtc.releaseOpt (some j) hp := by rw [show
        (Rtc.scoped_refptr.moveAssign dst src hp).2.2
          = Rtc.releaseOpt dst.ptr_ hp from rfl, hdst]
  constructor
  · rw [hheap]
    simpa using Rtc.releaseOpt_count (some j) hp j
  · rw [hheap]
    have hx := Rtc.releaseOpt_count (some j) hp i
    have hne2 : ¬ ((some j : Rtc.Ptr) = some i) := by
      simpa using hne
    simp [hne2] at hx
    exact hx

/-- Witness for C3: move-assigning a handle on referent 0 into a handle on
referent 1 over a heap with one claim each, at distinct referents. -/
theorem claim_C3_witness :
    (1 : Nat) ≠ 0 ∧
    ((Rtc.scoped_refptr.moveAssign ⟨some 1⟩ ⟨some 0⟩ hpOne).2.2 1).count
      = (hpOne 1).count - 1 ∧
    ((Rtc.scoped_refptr.moveAssign ⟨some 1⟩ ⟨some 0⟩ hpOne).2.2 0).count
      = (hpOne 0).count :=
  ⟨by decide,
    ((claim_C3 ⟨some 1⟩ ⟨some 0⟩ hpOne).2.2.2.1 0 1 rfl rfl (by decide)).1,
    ((claim_C3 ⟨some 1⟩ ⟨some 0⟩ hpOne).2.2.2.1 0 1 rfl rfl (by decide)).2⟩

/-- C7: copy assignment (same type and cross-type) delegates to assignment
from the source's raw pointer; at the trace level a copy assignment is the
same step as a raw assignment from the source slot's value, and it leaves
the source slot unchanged; cross-type copy construction registers exactly
one new claim and its accessor equals the source's referent. -/
theorem claim_C7 (d r : Rtc.scoped_refptr) (hp : Rtc.Heap) :
    Rtc.scoped_refptr.copyAssign d r hp
      = Rtc.scoped_refptr.assignRaw d (Rtc.scoped_refptr.get r) hp ∧
    Rtc.scoped_refptr.copyAssignU d r hp
      = Rtc.scoped_refptr.assignRaw d (Rtc.scoped_refptr.get r) hp ∧
    (∀ c : Rtc.Config, ∀ j k : Nat, k < c.handles.length →
      Rtc.step c (Rtc.Op.assignCopy j k)
        = Rtc.step c (Rtc.Op.assignRaw j (c.handles.getD k none))) ∧
    (∀ c : Rtc.Config, ∀ j k : Nat, j < c.handles.length →
      k < c.handles.length → j ≠ k →
      (Rtc.step c (Rtc.Op.assignCopy j k)).handles.getD k none
        = c.handles.getD k none) ∧
    (∀ i : Rtc.RefId, Rtc.scoped_refptr.get r = some i →
      ((Rtc.scoped_refptr.copyCtorU r hp).2 i).count = (hp i).count + 1) ∧
    (Rtc.scoped_refptr.copyCtorU r hp).1.get = Rtc.scoped_refptr.get r := by
  refine ⟨rfl, rfl, ?_, ?_, ?_, rfl⟩
  · intro c j k hk
    by_cases hj : j < c.handles.length
    · simp [Rtc.step, hj, hk]
    · simp [Rtc.step, hj]
  · intro c j k hj hk hne
    simp only [Rtc.step, if_pos hj, if_pos hk]
    exact Rtc.getD_set_ne c.handles k j (c.handles.getD k none)
      (fun e => hne e.symm)
  · intro i hi
    show ((Rtc.addRefOpt (Rtc.scoped_refptr.get r) hp) i).count = _
    rw [hi]
    simpa using Rtc.addRefOpt_count (some i) hp i

/-- Witness for C7: the trace-level delegation at a two-handle
configuration and the cross-type claim registration at referent 5. -/
theorem claim_C7_witness :
    (0 : Nat) < 2 ∧ Rtc.scoped_refptr.get ⟨some 5⟩ = some 5 ∧
    Rtc.step (Rtc.Config.mk [some 5, none] (fun _ => 0) hpOne)
        (Rtc.Op.assignCopy 1 0)
      = Rtc.step (Rtc.Config.mk [some 5, none] (fun _ => 0) hpOne)
        (Rtc.Op.assignRaw 1
          ((Rtc.Config.mk [some 5, none] (fun _ => 0)
            hpOne).handles.getD 0 none)) ∧
    ((Rtc.scoped_refptr.copyCtorU ⟨some 5⟩ hpOne).2 5).count
      = (hpOne 5).count + 1 :=
  ⟨by decide, rfl,
    (claim_C7 ⟨none⟩ ⟨none⟩ hpOne).2.2.1
      (Rtc.Config.mk [some 5, none] (fun _ => 0) hpOne) 1 0 (by decide),
    (claim_C7 ⟨none⟩ ⟨some 5⟩ hpOne).2.2.2.2.1 5 rfl⟩

/-- C8: across any number of calls in one process, the engagement action
(detaching the throwaway thread) runs at most once: the lazily initialized
flag is checked before the action and set after it, so every call after
the first returns without observable effect — the whole state after n+1
calls equals the state after one call. -/
theorem claim_C8 (mt : Bool) (n : Nat) :
    CocoaThreading.runInits (n + 1) (CocoaThreading.freshState mt)
      = CocoaThreading.InitCocoaMultiThreading
          (CocoaThreading.freshState mt) ∧
    (CocoaThreading.runInits (n + 1)
        (CocoaThreading.freshState mt)).detachCount ≤ 1 ∧
    (CocoaThreading.runInits (n + 1)
        (CocoaThreading.freshState mt)).flag = true ∧
    (CocoaThreading.runInits (n + 1)
        (CocoaThreading.freshState mt)).flagInit = true := by
  have hp := CocoaThreading.init_fresh_props mt
  have h0 : CocoaThreading.runInits (n + 1) (CocoaThreading.freshState mt)
      = CocoaThreading.InitCocoaMultiThreading
          (CocoaThreading.freshState mt) := by
    show CocoaThreading.runInits n
        (CocoaThreading.InitCocoaMultiThreading
          (CocoaThreading.freshState mt)) = _
    exact CocoaThreading.runInits_fixed n _ hp.1 hp.2.1
  exact ⟨h0, by rw [h0]; exact hp.2.2, by rw [h0]; exact hp.2.1,
    by rw [h0]; exact hp.1⟩
